import Mathlib

/-!
Verification of the pdf-parser outline-extraction pipeline.

The Python sources under challenge_1a/src (content_filter.py, font_analyzer.py,
heading_classifier.py, text_processor.py, utils.py) and pdf_extractor.py are
embedded shallowly below.  Text is String, page coordinates and font sizes are
rationals, the per-document mutable sets of ContentFilter become an explicit
FilterState record, and the FontAnalyzer state font_stats becomes an explicit
Option FontStats value threaded through the pipeline.  Each Python regular
expression is transcribed literally into a small regex AST and evaluated with
Brzozowski derivatives; re.match is a match anchored at the start of the text,
re.search scans every position, and the IGNORECASE flag is modelled by matching
on the lowercased text against a lowercase pattern.
-/

namespace PdfParser

/-! ### Character and list-of-character utilities, mirroring Python str methods -/

def isWs (c : Char) : Bool := c.isWhitespace

/-- Python str.strip applied from the left. -/
def ltrimL (l : List Char) : List Char := l.dropWhile isWs

/-- Python str.rstrip: drop trailing whitespace. -/
def rtrimL (l : List Char) : List Char := ((l.reverse.dropWhile isWs)).reverse

/-- Python str.strip. -/
def trimL (l : List Char) : List Char := rtrimL (ltrimL l)

def stripS (s : String) : String := ⟨trimL s.data⟩

def rstripS (s : String) : String := ⟨rtrimL s.data⟩

/-- Python str.lower, per character (the sources only handle ASCII text). -/
def lowerS (s : String) : String := ⟨s.data.map Char.toLower⟩

/-- Helper for splitting on whitespace runs: accumulates the current word. -/
def wordsLAux : List Char → List Char → List String
  | [], acc => if acc.isEmpty then [] else [⟨acc.reverse⟩]
  | c :: cs, acc =>
    if isWs c then
      if acc.isEmpty then wordsLAux cs [] else (⟨acc.reverse⟩ : String) :: wordsLAux cs []
    else wordsLAux cs (c :: acc)

/-- Python str.split() with no argument: split on whitespace runs, no empties. -/
def wordsL (s : String) : List String := wordsLAux s.data []

/-- Python list prefix test used to implement substring containment. -/
def listStartsWith : List Char → List Char → Bool
  | [], _ => true
  | _ :: _, [] => false
  | a :: as, b :: bs => a == b && listStartsWith as bs

/-- Python substring containment a in b (empty needle is contained). -/
def isSubstrL (needle : List Char) : List Char → Bool
  | [] => listStartsWith needle []
  | c :: cs => listStartsWith needle (c :: cs) || isSubstrL needle cs

def containsSub (hay needle : String) : Bool := isSubstrL needle.data hay.data

/-- Collapse of whitespace runs: one pass over the characters; the Bool records
whether whitespace is pending between emitted characters.  Used to model
re.sub of a whitespace run by a single space applied to a stripped string. -/
def collapseAux : List Char → Bool → List Char
  | [], _ => []
  | c :: cs, pending =>
    if isWs c then collapseAux cs true
    else (if pending then [' ', c] else [c]) ++ collapseAux cs false

def collapseL (l : List Char) : List Char := collapseAux (l.dropWhile isWs) false

/-- Python re.sub of a whitespace run by one space applied to text.strip(). -/
def collapseWs (s : String) : String := ⟨collapseL s.data⟩

def bulletChars : List Char := ['•', '-', '*', '+', '►', '▪', '▫', '◦', '‣', '⁃']

def isBulletOrWs (c : Char) : Bool := bulletChars.contains c || isWs c

/-- Python re.sub removing a leading run of bullet glyphs and whitespace. -/
def dropLeadingBullets (s : String) : String := ⟨s.data.dropWhile isBulletOrWs⟩

/-- Python str.rstrip with argument a period: drop every trailing period. -/
def dropTrailingDots (s : String) : String :=
  ⟨(s.data.reverse.dropWhile (fun c => c == '.')).reverse⟩

def endsWithDot (s : String) : Bool :=
  match s.data.getLast? with
  | some c => c == '.'
  | none => false

def endsWithColon (s : String) : Bool :=
  match s.data.getLast? with
  | some c => c == ':'
  | none => false

def firstCharUpper (s : String) : Bool :=
  match s.data with
  | [] => false
  | c :: _ => c.isUpper

/-- Python word characters for the regex class backslash-w (ASCII inputs). -/
def isWordChar (c : Char) : Bool := c.isAlpha || c.isDigit || c == '_'

/-! ### A small regex AST with Brzozowski-derivative matching

Every Python pattern in the sources is transcribed into this AST.  chrP holds
the character predicate of a single-character class. -/

inductive RE where
  | emp : RE
  | eps : RE
  | chrP : (Char → Bool) → RE
  | cat : RE → RE → RE
  | alt : RE → RE → RE
  | star : RE → RE

namespace RE

def mkCat : RE → RE → RE
  | emp, _ => emp
  | _, emp => emp
  | eps, b => b
  | a, eps => a
  | a, b => cat a b

def mkAlt : RE → RE → RE
  | emp, b => b
  | a, emp => a
  | a, b => alt a b

def nullable : RE → Bool
  | emp => false
  | eps => true
  | chrP _ => false
  | cat a b => nullable a && nullable b
  | alt a b => nullable a || nullable b
  | star _ => true

def deriv : RE → Char → RE
  | emp, _ => emp
  | eps, _ => emp
  | chrP p, c => if p c then eps else emp
  | cat a b, c =>
    if nullable a then mkAlt (mkCat (deriv a c) b) (deriv b c)
    else mkCat (deriv a c) b
  | alt a b, c => mkAlt (deriv a c) (deriv b c)
  | star a, c => mkCat (deriv a c) (star a)

/-- Whole-list match, used for patterns anchored on both sides. -/
def fullMatchL (r : RE) (l : List Char) : Bool := nullable (l.foldl deriv r)

/-- Match of some initial segment: the semantics of Python re.match. -/
def matchFromStart : RE → List Char → Bool
  | r, [] => nullable r
  | r, c :: cs => nullable r || matchFromStart (deriv r c) cs

/-- Match anywhere: the semantics of Python re.search. -/
def searchL (r : RE) : List Char → Bool
  | [] => nullable r
  | c :: cs => matchFromStart r (c :: cs) || searchL r cs

end RE

open RE

/-- Literal string pattern. -/
def lit (s : String) : RE := s.data.foldr (fun c r => RE.mkCat (RE.chrP (fun d => d == c)) r) RE.eps

/-- The regex dot: any character except a newline. -/
def anyC : RE := RE.chrP (fun c => !(c == '\n'))

def dig : RE := RE.chrP Char.isDigit

def wsC : RE := RE.chrP isWs

def wrd : RE := RE.chrP isWordChar

def oneOf (s : String) : RE := RE.chrP (fun c => s.data.contains c)

def notOf (s : String) : RE := RE.chrP (fun c => !(s.data.contains c))

def rePlus (r : RE) : RE := RE.cat r (RE.star r)

def reOpt (r : RE) : RE := RE.alt RE.eps r

def repExact (r : RE) : Nat → RE
  | 0 => RE.eps
  | n + 1 => RE.cat r (repExact r n)

def repAtMost (r : RE) : Nat → RE
  | 0 => RE.eps
  | n + 1 => RE.alt RE.eps (RE.cat r (repAtMost r n))

/-- Bounded repetition with at least m and at most n occurrences. -/
def repRange (r : RE) (m n : Nat) : RE := RE.cat (repExact r m) (repAtMost r (n - m))

/-- Repetition with at least m occurrences. -/
def repAtLeast (r : RE) (m : Nat) : RE := RE.cat (repExact r m) (RE.star r)

def altList (l : List RE) : RE := l.foldr RE.mkAlt RE.emp

/-- Python re.match with the IGNORECASE flag: anchored at the start, modelled
by matching the lowercased text against a lowercase pattern. -/
def reMatchCI (r : RE) (s : String) : Bool := RE.matchFromStart r (lowerS s).data

/-- Python re.match with IGNORECASE of a pattern anchored on both sides. -/
def reFullCI (r : RE) (s : String) : Bool := RE.fullMatchL r (lowerS s).data

/-- Python re.search with IGNORECASE. -/
def reSearchCI (r : RE) (s : String) : Bool := RE.searchL r (lowerS s).data

/-! ### The data model -/

/-- One text block of extract_formatted_text_blocks: text, page (1-based),
bbox corners, page dimensions, representative font size, family and flags.
Coordinates are integers in layout units; font sizes are integers in tenths
of a unit, exact because the source rounds every size to one decimal.  Every
fractional threshold of the source is embedded as the equivalent
cross-multiplied integer comparison. -/
structure Block where
  text : String
  page : Nat
  x0 : ℤ
  y0 : ℤ
  x1 : ℤ
  y1 : ℤ
  pageWidth : ℤ
  pageHeight : ℤ
  fontSize : ℤ
  fontFamily : String
  flags : Nat
  deriving DecidableEq

/-- A document as handed to the pipeline: its page count together with the
text blocks extracted from it (pages without text contribute no block). -/
structure Document where
  pageCount : Nat
  blocks : List Block
  deriving DecidableEq

/-- The mutable sets of ContentFilter, made explicit.  Membership is by exact
(stripped) text value; table regions are (page, bbox) pairs. -/
structure FilterState where
  tablePatterns : List String
  headersFooters : List String
  tocContent : List String
  tocPages : List Nat
  tableRegions : List (Nat × (ℤ × ℤ × ℤ × ℤ))
  deriving DecidableEq

def emptyFilterState : FilterState := ⟨[], [], [], [], []⟩

/-- The font statistics computed by FontAnalyzer.analyze_font_patterns.  The
unique_sizes entry of the Python dict is never read downstream and is not
modelled. -/
structure FontStats where
  bodyFontSize : ℤ
  bodyFontFamily : String
  sizeHierarchy : List ℤ
  deriving DecidableEq

/-- A heading as produced by classify_headings (with the font size and bbox
fields that merge_multiline_headings still reads). -/
structure HeadingFull where
  level : String
  text : String
  page : Nat
  fontSize : ℤ
  x0 : ℤ
  y0 : ℤ
  x1 : ℤ
  y1 : ℤ
  deriving DecidableEq

/-- A final outline entry. -/
structure OutlineEntry where
  level : String
  text : String
  page : Nat
  deriving DecidableEq

/-- The record returned by extract_outline.  The title is an Option because
the source detect_title can fall through and return Python None. -/
structure ExtractResult where
  title : Option String
  outline : List OutlineEntry
  deriving DecidableEq

/-! ### utils.py -/

/-- utils.is_left_or_center_aligned: x0 below 70 percent of the page width,
or within 25 percent of the page width from the page center (both
comparisons cross-multiplied to integers). -/
def is_left_or_center_aligned (b : Block) : Bool :=
  decide (10 * b.x0 < 7 * b.pageWidth) ||
  decide (((4 * b.x0 - 2 * b.pageWidth).natAbs : ℤ) < b.pageWidth)

/-- utils.is_page_number: the four anchored patterns, IGNORECASE. -/
def is_page_number (s : String) : Bool :=
  let t := stripS s
  reFullCI (repRange dig 1 3) t ||
  reMatchCI (mkCat (lit ("page")) (mkCat (rePlus wsC) (rePlus dig))) t ||
  reFullCI (mkCat (rePlus dig) (mkCat (rePlus wsC) (mkCat (lit ("of")) (mkCat (rePlus wsC) (rePlus dig))))) t ||
  reFullCI (repRange (oneOf ("ivxlcdm")) 1 6) t

/-- utils.is_footer_area: bottom 15 percent of the page. -/
def is_footer_area (b : Block) : Bool := decide (100 * b.y0 > 85 * b.pageHeight)

/-- utils.clean_heading_text: collapse whitespace on the stripped text, drop
leading bullet glyphs, then rstrip every trailing period when the text has
more than one word and its last whitespace-separated word is longer than 3
characters, and finally strip. -/
def clean_heading_text (s : String) : String :=
  let c1 := collapseWs s
  let c2 := dropLeadingBullets c1
  let c3 :=
    if endsWithDot c2 && decide ((wordsL c2).length > 1) &&
       decide (((wordsL c2).getLastD ("")).length > 3)
    then dropTrailingDots c2 else c2
  stripS c3

/-- The first two cleaning stages of clean_heading_text. -/
def cleanCore (s : String) : String := dropLeadingBullets (collapseWs s)

/-- The period-stripping condition of clean_heading_text. -/
def dotStripCond (c : String) : Bool :=
  endsWithDot c && decide ((wordsL c).length > 1) &&
  decide (((wordsL c).getLastD ("")).length > 3)

/-! ### content_filter.py — table of contents detection -/

/-- The four TOC heading patterns of identify_table_of_contents and
is_toc_heading, matched against the stripped lowercase text. -/
def tocHeadingRE : RE :=
  altList
    [ mkCat (lit ("table")) (mkCat (rePlus wsC)
        (mkCat (lit ("of")) (mkCat (rePlus wsC)
          (mkCat (lit ("content")) (reOpt (lit ("s"))))))),
      mkCat (lit ("content")) (reOpt (lit ("s"))),
      lit ("index"),
      mkCat (RE.star wsC) (mkCat (lit ("toc")) (RE.star wsC)) ]

/-- ContentFilter.is_toc_heading. -/
def is_toc_heading (s : String) : Bool := reFullCI tocHeadingRE (stripS s)

/-- Digits with optional dotted groups, the shape d+(.d+)* used repeatedly. -/
def numDots : RE := mkCat (rePlus dig) (RE.star (mkCat (lit (".")) (rePlus dig)))

/-- Word-boundary-delimited run of one to three digits: Python
re.search of backslash-b digits 1-3 backslash-b. -/
def hasShortNumber (s : String) : Bool :=
  let l := s.data
  (List.range l.length).any fun i =>
    (i == 0 || !(isWordChar (l.getD (i - 1) ' '))) &&
    (([1, 2, 3] : List Nat).any fun k =>
      decide (i + k ≤ l.length) &&
      ((List.range k).all fun j => (l.getD (i + j) ' ').isDigit) &&
      (i + k == l.length || !(isWordChar (l.getD (i + k) ' '))))

/-- The nine TOC entry patterns of is_toc_entry, IGNORECASE. -/
def tocEntryFullREs : List RE :=
  [ -- .+\.{3,}.+\d+ ws* (dotted leader with a page number)
    mkCat (rePlus anyC) (mkCat (repAtLeast (lit (".")) 3)
      (mkCat (rePlus anyC) (mkCat (rePlus dig) (RE.star wsC)))),
    -- .+ ws+ \d+ ws*  (text followed by a page number)
    mkCat (rePlus anyC) (mkCat (rePlus wsC) (mkCat (rePlus dig) (RE.star wsC))),
    -- \d+(\.\d+)* ws+ .+ ws+ \d+ ws*
    mkCat numDots (mkCat (rePlus wsC) (mkCat (rePlus anyC)
      (mkCat (rePlus wsC) (mkCat (rePlus dig) (RE.star wsC))))),
    -- [^.]+ [.ws]{2,} \d+ ws*
    mkCat (rePlus (notOf ("."))) (mkCat
      (repAtLeast (RE.chrP (fun c => c == '.' || isWs c)) 2)
      (mkCat (rePlus dig) (RE.star wsC))),
    -- \d{1,3} ws*
    mkCat (repRange dig 1 3) (RE.star wsC),
    -- .+ [.-_ws]{2,} \d+ ws*
    mkCat (rePlus anyC) (mkCat
      (repAtLeast (RE.chrP (fun c => c == '.' || c == '-' || c == '_' || isWs c)) 2)
      (mkCat (rePlus dig) (RE.star wsC))),
    -- [ivxlcdm]+ [.ws]+ .+ ws+ \d+ ws*
    mkCat (rePlus (oneOf ("ivxlcdm"))) (mkCat
      (rePlus (RE.chrP (fun c => c == '.' || isWs c)))
      (mkCat (rePlus anyC) (mkCat (rePlus wsC)
        (mkCat (rePlus dig) (RE.star wsC))))) ]

/-- The two unanchored-at-the-end TOC entry patterns (re.match semantics). -/
def tocEntryStartREs : List RE :=
  [ -- .*(see ws+)?page ws+ \d+
    mkCat (RE.star anyC) (mkCat (reOpt (mkCat (lit ("see")) (rePlus wsC)))
      (mkCat (lit ("page")) (mkCat (rePlus wsC) (rePlus dig)))),
    -- \d+\.\d+ ws+ \d+\.\d+ ws+ \d+
    mkCat (rePlus dig) (mkCat (lit (".")) (mkCat (rePlus dig)
      (mkCat (rePlus wsC) (mkCat (rePlus dig) (mkCat (lit (".")) (mkCat (rePlus dig)
        (mkCat (rePlus wsC) (rePlus dig)))))))) ]

/-- ContentFilter.is_toc_entry: the pattern list plus the text-and-numbers
heuristic. -/
def is_toc_entry (s : String) : Bool :=
  let t := stripS s
  if decide (t.length < 3) then false
  else if tocEntryFullREs.any (fun r => reFullCI r t) ||
          tocEntryStartREs.any (fun r => reMatchCI r t) then true
  else if hasShortNumber t then
    (wordsL t).any (fun w => (!w.data.isEmpty && w.data.all Char.isAlpha) && decide (w.length > 2)) &&
    (wordsL t).any (fun w => !w.data.isEmpty && w.data.all Char.isDigit)
  else false

/-! ### content_filter.py — table pattern detection -/

/-- The month alternations of the table indicator patterns. -/
def monthsShort : RE :=
  altList ((["jan", "feb", "mar", "apr", "may", "jun",
             "jul", "aug", "sep", "oct", "nov", "dec"] : List String).map lit)

def monthsLong : RE :=
  altList ((["june", "july", "november", "december"] : List String).map lit)

/-- The digit-or-dot character class. -/
def digDot : RE := RE.chrP (fun c => c.isDigit || c == '.')

/-- The table indicator patterns of identify_table_patterns that are anchored
on both sides. -/
def tableIndicatorFullREs : List RE :=
  [ -- [\d.]+ ws+ [\d.]+
    mkCat (rePlus digDot) (mkCat (rePlus wsC) (rePlus digDot)),
    -- \d+( ws+ \d+)+
    mkCat (rePlus dig) (rePlus (mkCat (rePlus wsC) (rePlus dig))),
    -- © .* \d{4}
    mkCat (lit ("©")) (mkCat (RE.star anyC) (repExact dig 4)),
    -- version ws+ date ws+ remarks
    mkCat (lit ("version")) (mkCat (rePlus wsC) (mkCat (lit ("date"))
      (mkCat (rePlus wsC) (lit ("remarks"))))),
    -- syllabus ws+ days
    mkCat (lit ("syllabus")) (mkCat (rePlus wsC) (lit ("days"))) ]

/-- The table indicator patterns matched only from the start of the text. -/
def tableIndicatorStartREs : List RE :=
  [ -- \d+\.\d+ ws+ \d+ ws+ month ws+ \d{4}
    mkCat (rePlus dig) (mkCat (lit (".")) (mkCat (rePlus dig) (mkCat (rePlus wsC)
      (mkCat (rePlus dig) (mkCat (rePlus wsC) (mkCat monthsShort
        (mkCat (rePlus wsC) (repExact dig 4)))))))),
    -- \d{1,2} ws+ longmonth ws+ \d{4}
    mkCat (repRange dig 1 2) (mkCat (rePlus wsC) (mkCat monthsLong
      (mkCat (rePlus wsC) (repExact dig 4)))),
    -- page ws+ \d+ ws+ of ws+ \d+
    mkCat (lit ("page")) (mkCat (rePlus wsC) (mkCat (rePlus dig)
      (mkCat (rePlus wsC) (mkCat (lit ("of")) (mkCat (rePlus wsC) (rePlus dig)))))),
    -- version ws+ \d{4}
    mkCat (lit ("version")) (mkCat (rePlus wsC) (repExact dig 4)),
    -- may ws+ \d{1,2} , ws+ \d{4}   (re.match anchors at the start)
    mkCat (lit ("may")) (mkCat (rePlus wsC) (mkCat (repRange dig 1 2)
      (mkCat (lit (",")) (mkCat (rePlus wsC) (repExact dig 4))))) ]

/-- Whether a text matches one of the table indicator patterns. -/
def matchesTableIndicator (t : String) : Bool :=
  tableIndicatorFullREs.any (fun r => reFullCI r t) ||
  tableIndicatorStartREs.any (fun r => reMatchCI r t)

/-- ContentFilter.identify_table_patterns: record every stripped block text
matching a table indicator pattern. -/
def identify_table_patterns (cf : FilterState) (blocks : List Block) : FilterState :=
  { cf with tablePatterns := cf.tablePatterns ++
      blocks.filterMap (fun b =>
        let t := stripS b.text
        if matchesTableIndicator t then some t else none) }

/-- The additional patterns of is_likely_table_content, anchored both sides. -/
def likelyTableFullREs : List RE :=
  [ -- \d+(\.\d+)* ws+ \d+(\.\d+)*
    mkCat numDots (mkCat (rePlus wsC) numDots),
    -- \w{1,5}
    repRange wrd 1 5 ]

/-- The additional patterns of is_likely_table_content matched from the start. -/
def likelyTableStartREs : List RE :=
  [ -- \d+\.\d+ .* \d{4}
    mkCat (rePlus dig) (mkCat (lit (".")) (mkCat (rePlus dig)
      (mkCat (RE.star anyC) (repExact dig 4)))),
    -- (\w{1,3} ws+){3,}
    repAtLeast (mkCat (repRange wrd 1 3) (rePlus wsC)) 3,
    -- © .* international .* board
    mkCat (lit ("©")) (mkCat (RE.star anyC) (mkCat (lit ("international"))
      (mkCat (RE.star anyC) (lit ("board"))))),
    -- page ws+ \d+
    mkCat (lit ("page")) (mkCat (rePlus wsC) (rePlus dig)),
    -- may ws+ \d+ , ws+ \d{4}
    mkCat (lit ("may")) (mkCat (rePlus wsC) (mkCat (rePlus dig)
      (mkCat (lit (",")) (mkCat (rePlus wsC) (repExact dig 4))))) ]

/-- ContentFilter.is_likely_table_content: membership in the recorded table
patterns or a match of one of the additional patterns. -/
def is_likely_table_content (cf : FilterState) (s : String) : Bool :=
  let t := stripS s
  cf.tablePatterns.contains t ||
  likelyTableFullREs.any (fun r => reFullCI r t) ||
  likelyTableStartREs.any (fun r => reMatchCI r t)

/-! ### content_filter.py — visual table detection

The external pdfplumber detector is out of scope; identify_visual_tables is
modelled as consuming the detector output, a list of candidate tables per
page, each a bbox together with the extracted cell matrix (none models a
table whose extract call raised). -/

/-- One candidate table from the external geometry detector. -/
structure DetectedTable where
  x0 : ℤ
  y0 : ℤ
  x1 : ℤ
  y1 : ℤ
  tableData : Option (List (List (Option String)))
  deriving DecidableEq

/-- Python cell truthiness followed by str.strip: a cell counts as non-empty
when it is present and its stripped text is not the empty string. -/
def cellNonEmpty (c : Option String) : Bool :=
  match c with
  | none => false
  | some s => !(s == "") && !(stripS s == "")

/-- The header-likeness patterns of _has_table_headers, applied with
re.search to the lowercased stripped cell text. -/
def headerCellREs : List RE :=
  [ altList ((["name", "title", "description", "type", "date", "version",
               "status", "amount", "quantity", "id"] : List String).map lit ++
             [mkCat (lit ("no")) (reOpt (lit (".")))]),
    altList ([mkCat (lit ("s")) (mkCat (reOpt (lit ("."))) (mkCat (lit ("no")) (reOpt (lit ("."))))),
              mkCat (lit ("sr")) (mkCat (reOpt (lit ("."))) (mkCat (lit ("no")) (reOpt (lit ("."))))),
              lit ("item"), lit ("category"), lit ("remarks"), lit ("comments")]),
    altList ((["page", "chapter", "section", "subsection"] : List String).map lit) ]

/-- ContentFilter._has_table_headers. -/
def has_table_headers (d : List (List (Option String))) : Bool :=
  if decide (d.length < 2) then false
  else
    let firstRow := d.headD []
    if firstRow.isEmpty then false
    else
      let cnt := (firstRow.filter fun c =>
        match c with
        | none => false
        | some s =>
          (!(s == "") && !(stripS s == "")) &&
          headerCellREs.any (fun r => RE.searchL r (lowerS (stripS s)).data)).length
      decide (2 * cnt ≥ firstRow.length)

/-- A purely numeric value: anchored \d+(\.\d+)? . -/
def isNumericVal (s : String) : Bool :=
  RE.fullMatchL (mkCat (rePlus dig) (reOpt (mkCat (lit (".")) (rePlus dig)))) s.data

/-- A date-like value: re.search of one-or-two-digit groups separated by a
slash or dash, or an ISO d{4}-d{2}-d{2} date. -/
def isDateVal (s : String) : Bool :=
  RE.searchL
    (RE.alt
      (mkCat (repRange dig 1 2) (mkCat (oneOf ("/-"))
        (mkCat (repRange dig 1 2) (mkCat (oneOf ("/-")) (repRange dig 2 4)))))
      (mkCat (repExact dig 4) (mkCat (lit ("-"))
        (mkCat (repExact dig 2) (mkCat (lit ("-")) (repExact dig 2))))))
    s.data

/-- The values of one column below the header row, as collected by
_has_structured_data (truthy cells only, stripped). -/
def columnValues (d : List (List (Option String))) (j : Nat) : List String :=
  d.tail.filterMap fun row =>
    match row.getD j none with
    | none => none
    | some s => if s == "" then none else some (stripS s)

/-- ContentFilter._has_structured_data. -/
def has_structured_data (d : List (List (Option String))) : Bool :=
  if decide (d.length < 2) then false
  else
    let totalCols := (d.headD []).length
    if totalCols == 0 then false
    else
      let numericCols := ((List.range totalCols).filter fun j =>
        let vals := columnValues d j
        !vals.isEmpty &&
        decide (10 * (vals.filter isNumericVal).length ≥ 7 * vals.length)).length
      let dateCols := ((List.range totalCols).filter fun j =>
        let vals := columnValues d j
        !vals.isEmpty &&
        decide (10 * (vals.filter isDateVal).length ≥ 5 * vals.length)).length
      decide (numericCols ≥ 1) || decide (dateCols ≥ 1)

/-- ContentFilter._is_valid_table_structure: none for tableData models the
extraction-exception path handled with the bbox size heuristic; the Python
cols == 1 test after the rows-and-cols minimum is unreachable and elided. -/
def is_valid_table_structure (t : DetectedTable) : Bool :=
  match t.tableData with
  | none => decide (t.x1 - t.x0 > 100) && decide (t.y1 - t.y0 > 50)
  | some d =>
    if d.isEmpty then false
    else
      let rows := d.length
      let cols := (d.headD []).length
      if decide (rows < 2) || decide (cols < 2) then false
      else
        let totalCells : Nat := (d.map (fun row => row.length)).sum
        let nonEmptyCells : Nat := (d.map (fun row => (row.filter cellNonEmpty).length)).sum
        if decide (totalCells > 0) &&
           decide (10 * nonEmptyCells < 3 * totalCells) then false
        else has_table_headers d || has_structured_data d

/-- ContentFilter.identify_visual_tables, parameterised by the detector
output: the bbox of every candidate accepted by _is_valid_table_structure is
recorded as a table region of its page. -/
def identify_visual_tables (tables : List (Nat × DetectedTable)) (cf : FilterState) :
    FilterState :=
  { cf with tableRegions := cf.tableRegions ++
      tables.filterMap (fun pt =>
        if is_valid_table_structure pt.2 then some (pt.1, (pt.2.x0, pt.2.y0, pt.2.x1, pt.2.y1))
        else none) }

/-- ContentFilter.is_text_in_table: the block bbox lies inside some recorded
region of its page, with a tolerance of 5 layout units. -/
def is_text_in_table (cf : FilterState) (b : Block) : Bool :=
  (cf.tableRegions.filter (fun pr => pr.1 == b.page)).any fun pr =>
    decide (b.x0 ≥ pr.2.1 - 5) && decide (b.x1 ≤ pr.2.2.2.1 + 5) &&
    decide (b.y0 ≥ pr.2.2.1 - 5) && decide (b.y1 ≤ pr.2.2.2.2 + 5)

/-! ### content_filter.py — TOC pages, headers and footers -/

/-- The TOC pages recorded by step 1 of identify_table_of_contents: the page
of each block whose text is a TOC heading, the following page, and the
preceding page when the block is past page 1. -/
def tocPageAdds (blocks : List Block) : List Nat :=
  blocks.foldl (fun acc b =>
    if is_toc_heading (stripS b.text) then
      (acc ++ [b.page, b.page + 1]) ++ (if decide (b.page > 1) then [b.page - 1] else [])
    else acc) []

/-- ContentFilter.identify_table_of_contents: mark TOC pages, then record
every TOC-entry text on a TOC page, skipping the TOC heading itself. -/
def identify_table_of_contents (cf : FilterState) (blocks : List Block) : FilterState :=
  let pages := cf.tocPages ++ tocPageAdds blocks
  let entries := blocks.filterMap fun b =>
    if pages.contains b.page then
      let t := stripS b.text
      if is_toc_heading t then none
      else if is_toc_entry t then some t
      else none
    else none
  { cf with tocPages := pages, tocContent := cf.tocContent ++ entries }

/-- Deduplication keeping the first occurrence of each element, the iteration
order of a Python dict or Counter. -/
def firstUniques {α : Type} [DecidableEq α] : List α → List α
  | [] => []
  | x :: xs => x :: (firstUniques xs).filter (fun y => decide (y ≠ x))

/-- Counter.most_common(1): the element of the list with the greatest count,
the first-encountered one on ties.  The default is returned for the empty
list (the sources only call this on non-empty lists). -/
def mostCommon {α : Type} [DecidableEq α] (l : List α) (dflt : α) : α :=
  (firstUniques l).foldl
    (fun best x => if decide (l.count x > l.count best) then x else best)
    ((firstUniques l).headD dflt)

/-- The texts of blocks in the top 15 percent of their page. -/
def topBandTexts (blocks : List Block) : List String :=
  blocks.filterMap fun b =>
    if decide (100 * b.y0 < 15 * b.pageHeight) then some (stripS b.text) else none

/-- The texts of blocks in the bottom 15 percent of their page (the elif
branch: a block counted in the top band is not also counted here). -/
def bottomBandTexts (blocks : List Block) : List String :=
  blocks.filterMap fun b =>
    if decide (100 * b.y0 < 15 * b.pageHeight) then none
    else if decide (100 * b.y0 > 85 * b.pageHeight) then some (stripS b.text)
    else none

/-- The distinct pages carrying at least one block: the keys of the
page_positions dict of identify_headers_footers. -/
def numBlockPages (blocks : List Block) : Nat :=
  (firstUniques (blocks.map (fun b => b.page))).length

/-- min_occurrences of identify_headers_footers. -/
def minOccurrences (blocks : List Block) : Nat := max 2 (numBlockPages blocks / 3)

/-- The footer boilerplate keywords. -/
def footerKeywords : List String :=
  ["copyright", "©", "page", "confidential", "proprietary", "all rights reserved"]

/-- The top-band texts accepted as headers: recurring at least
min_occurrences times and not a page-number pattern. -/
def headerAdds (blocks : List Block) : List String :=
  (firstUniques (topBandTexts blocks)).filter fun t =>
    decide ((topBandTexts blocks).count t ≥ minOccurrences blocks) && !(is_page_number t)

/-- The bottom-band texts accepted as footers. -/
def footerAdds (blocks : List Block) : List String :=
  (firstUniques (bottomBandTexts blocks)).filter fun t =>
    decide ((bottomBandTexts blocks).count t ≥ minOccurrences blocks) &&
    (decide (t.length < 50) || is_page_number t ||
     footerKeywords.any (fun k => containsSub (lowerS t) k) ||
     decide (10 * (bottomBandTexts blocks).count t ≥ 8 * numBlockPages blocks))

/-- ContentFilter.identify_headers_footers. -/
def identify_headers_footers (cf : FilterState) (blocks : List Block) : FilterState :=
  { cf with headersFooters := cf.headersFooters ++ headerAdds blocks ++ footerAdds blocks }

/-! ### content_filter.py — the public content-block query -/

/-- The multi-condition basic filter opening is_valid_content_block: short
text, a recorded table, header-footer or TOC-entry value, a page number, or
likely table content. -/
def basicContentReject (cf : FilterState) (b : Block) : Bool :=
  decide ((stripS b.text).length < 5) ||
  cf.tablePatterns.contains (stripS b.text) ||
  cf.headersFooters.contains (stripS b.text) ||
  cf.tocContent.contains (stripS b.text) ||
  is_page_number (stripS b.text) ||
  is_likely_table_content cf (stripS b.text)

/-- ContentFilter.is_valid_content_block: the basic filters, then the table
region check, then the TOC special cases.  The Python bbox presence test is
always true here since every Block carries a bbox. -/
def is_valid_content_block (cf : FilterState) (b : Block) : Bool :=
  if basicContentReject cf b then false
  else if is_text_in_table cf b then false
  else if is_toc_heading (stripS b.text) then true
  else if is_toc_entry (stripS b.text) then false
  else true

/-- ContentFilter.process_all_filters: visual tables first when detector
output is available, then TOC identification, table patterns, and headers
and footers. -/
def process_all_filters (tables : List (Nat × DetectedTable)) (cf : FilterState)
    (blocks : List Block) : FilterState :=
  identify_headers_footers
    (identify_table_patterns
      (identify_table_of_contents (identify_visual_tables tables cf) blocks) blocks) blocks

/-! ### font_analyzer.py -/

def insertDescZ (x : ℤ) : List ℤ → List ℤ
  | [] => [x]
  | y :: ys => if decide (x ≥ y) then x :: y :: ys else y :: insertDescZ x ys

/-- Descending sort, modelling Python sorted with reverse=True. -/
def sortDescZ : List ℤ → List ℤ
  | [] => []
  | x :: xs => insertDescZ x (sortDescZ xs)

/-- The fallback statistics of analyze_font_patterns: 12.0, in tenths. -/
def fallbackFontStats : FontStats := ⟨120, "Arial", []⟩

/-- FontAnalyzer.analyze_font_patterns.  The first component is the returned
dict, the second the font_stats attribute after the call: on the fallback
path the attribute is left unchanged (the prev argument), otherwise the
computed statistics are stored. -/
def analyze_font_patterns (cf : FilterState) (blocks : List Block)
    (prev : Option FontStats) : FontStats × Option FontStats :=
  let valid := blocks.filter (is_valid_content_block cf)
  if valid.isEmpty then (fallbackFontStats, prev)
  else
    let sizes := valid.map (fun b => b.fontSize)
    let bodyFontSize := mostCommon sizes 0
    let uniqueSizes := sortDescZ (firstUniques sizes)
    let headingSizes := uniqueSizes.filter (fun s => decide (s > bodyFontSize))
    let bodyFontFamily := mostCommon (valid.map (fun b => b.fontFamily)) ""
    let st : FontStats := ⟨bodyFontSize, bodyFontFamily, headingSizes ++ [bodyFontSize]⟩
    (st, some st)

/-- FontAnalyzer.has_visual_distinction: false while font_stats is unset. -/
def has_visual_distinction (fs : Option FontStats) (b : Block) : Bool :=
  match fs with
  | none => false
  | some st =>
    decide (b.flags.land 16 ≠ 0) || decide (b.flags.land 2 ≠ 0) ||
    decide (b.fontSize > st.bodyFontSize) || decide (b.fontFamily ≠ st.bodyFontFamily)

/-- FontAnalyzer.get_font_size_level: 2 while font_stats is unset or the
hierarchy is empty, else the three-tier comparison against the body size
(the larger_sizes position computed by the Python code is never used).  The
source threshold of 2 size units is 20 in tenths. -/
def get_font_size_level (fs : Option FontStats) (fontSize : ℤ) : Nat :=
  match fs with
  | none => 2
  | some st =>
    if st.sizeHierarchy.isEmpty then 2
    else if decide (fontSize > st.bodyFontSize + 20) then 1
    else if decide (fontSize > st.bodyFontSize) then 2
    else 3

/-! ### heading_classifier.py -/

/-- HeadingClassifier.detect_title.  The source computes early_blocks (pages
1 and 2) and returns the placeholder when there are none; the grouping and
scoring statements of the intended algorithm sit after the return statement
of _merge_title_group and are unreachable, so for a non-empty early-blocks
list the method falls off its end and the call returns Python None, modelled
by none. -/
def detect_title (blocks : List Block) : Option String :=
  if (blocks.filter (fun b => decide (b.page ≤ 2))).isEmpty then
    some ("Untitled Document")
  else none

/-- The title-duplicate test shared by is_valid_heading and
validate_and_clean_headings: an exact match of the cleaned texts, or a
cleaned block text longer than 5 contained in the cleaned title and at least
30 percent of its length.  A None or empty title (Python falsiness) never
excludes. -/
def titleExcluded (title : Option String) (text : String) : Bool :=
  match title with
  | none => false
  | some t =>
    !(t == "") &&
    (clean_heading_text text == clean_heading_text t ||
     (decide ((clean_heading_text text).length > 5) &&
      containsSub (clean_heading_text t) (clean_heading_text text) &&
      decide (10 * (clean_heading_text text).length > 3 * (clean_heading_text t).length)))

/-- The boilerplate keywords of the footer carve-out in is_valid_heading. -/
def headingFooterKeywords : List String :=
  ["copyright", "©", "page", "confidential", "proprietary"]

/-- The section-name keywords of is_valid_heading. -/
def sectionNameKeywords : List String :=
  ["introduction", "overview", "content", "references",
   "acknowledgements", "history", "outcomes"]

/-- A numbered-heading prefix: digits followed by a period. -/
def isNumberedHeading (t : String) : Bool :=
  RE.matchFromStart (mkCat (rePlus dig) (lit ("."))) t.data

/-- A numbered-subsection prefix: digits, period, digits. -/
def isSubsectionHeading (t : String) : Bool :=
  RE.matchFromStart (mkCat (rePlus dig) (mkCat (lit (".")) (rePlus dig))) t.data

/-- The heading-shape disjunction checked under visual distinction. -/
def headingShape (t : String) : Bool :=
  isNumberedHeading t || isSubsectionHeading t ||
  sectionNameKeywords.any (fun k => containsSub (lowerS t) k) ||
  endsWithColon t ||
  (firstCharUpper t && decide ((wordsL t).length ≤ 10))

/-- HeadingClassifier.is_valid_heading, with the detected title passed
explicitly in place of the document_title attribute. -/
def is_valid_heading (title : Option String) (cf : FilterState) (fs : Option FontStats)
    (b : Block) : Bool :=
  let text := stripS b.text
  if titleExcluded title text then false
  else if decide (text.length < 3) || decide (text.length > 200) ||
          cf.tablePatterns.contains text || is_likely_table_content cf text then false
  else if cf.headersFooters.contains text &&
          !(decide (text.length > 30) && is_footer_area b &&
            !(headingFooterKeywords.any (fun k => containsSub (lowerS text) k))) then false
  else if !(is_left_or_center_aligned b) then false
  else has_visual_distinction fs b && headingShape text

/-- HeadingClassifier.determine_heading_level.  The numbered check runs
before the subsection check exactly as in the source (where the elif branch
is therefore unreachable), then the canonical titles, then the font tier. -/
def determine_heading_level (fs : Option FontStats) (b : Block) : String :=
  let text := stripS b.text
  if isNumberedHeading text then "H1"
  else if isSubsectionHeading text then "H2"
  else if text == "Revision History" || text == "Table of Contents" ||
          text == "Acknowledgements" then "H1"
  else "H" ++ toString (get_font_size_level fs b.fontSize)

/-- HeadingClassifier.classify_headings: detect_title is recomputed for the
document_title attribute, then every block passing is_valid_heading is
emitted with its level and cleaned text. -/
def classify_headings (cf : FilterState) (fs : Option FontStats)
    (blocks : List Block) : List HeadingFull :=
  (blocks.filter (is_valid_heading (detect_title blocks) cf fs)).map fun b =>
    ⟨determine_heading_level fs b, clean_heading_text b.text, b.page,
     b.fontSize, b.x0, b.y0, b.x1, b.y1⟩

/-- The per-heading body of validate_and_clean_headings. -/
def validateOne (cf : FilterState) (title : Option String) (h : OutlineEntry) :
    Option OutlineEntry :=
  if decide ((stripS h.text).length < 3) || decide ((stripS h.text).length > 200) then none
  else if is_likely_table_content cf (stripS h.text) then none
  else if titleExcluded title (stripS h.text) then none
  else if decide ((clean_heading_text (stripS h.text)).length ≥ 3) then
    some ⟨h.level, clean_heading_text (stripS h.text), h.page⟩
  else none

/-- HeadingClassifier.validate_and_clean_headings. -/
def validate_and_clean_headings (cf : FilterState) (title : Option String)
    (hs : List OutlineEntry) : List OutlineEntry :=
  hs.filterMap (validateOne cf title)

/-! ### text_processor.py — merging of multi-line headings -/

/-- TextProcessor.should_merge_headings. -/
def should_merge_headings (h1 h2 : HeadingFull) : Bool :=
  h1.page == h2.page && h1.level == h2.level &&
  !(decide (h2.y0 - h1.y1 > 30)) &&
  !(endsWithDot (rstripS h1.text)) &&
  !(decide (h1.text.length + h2.text.length > 150))

/-- TextProcessor.merge_multiline_headings: walk the list pairwise, joining a
mergeable pair into one entry with the first element level and page. -/
def merge_multiline_headings : List HeadingFull → List OutlineEntry
  | [] => []
  | [a] => [⟨a.level, a.text, a.page⟩]
  | a :: b :: rest =>
    if should_merge_headings a b then
      ⟨a.level, stripS (a.text ++ " " ++ b.text), a.page⟩ :: merge_multiline_headings rest
    else
      ⟨a.level, a.text, a.page⟩ :: merge_multiline_headings (b :: rest)

/-! ### pdf_extractor.py — the pipeline -/

/-- The filter state built by steps 2 and 3 of extract_outline: table
patterns then headers and footers.  The pipeline never invokes
identify_table_of_contents or process_all_filters, so the TOC sets and the
table regions stay empty here. -/
def extractOutlineState (blocks : List Block) : FilterState :=
  identify_headers_footers (identify_table_patterns emptyFilterState blocks) blocks

/-- Steps 4 to 8 of extract_outline from a given filter state: font
analysis (starting from an unset font_stats attribute), classification,
merging, and final validation against the recomputed title. -/
def outlineFromState (cf : FilterState) (blocks : List Block) : List OutlineEntry :=
  validate_and_clean_headings cf (detect_title blocks)
    (merge_multiline_headings
      (classify_headings cf (analyze_font_patterns cf blocks none).2 blocks))

/-- PDFOutlineExtractor.extract_outline on an extracted block list. -/
def extract_outline (blocks : List Block) : ExtractResult :=
  if blocks.isEmpty then ⟨some ("Empty Document"), []⟩
  else ⟨detect_title blocks, outlineFromState (extractOutlineState blocks) blocks⟩

/-! ### Concrete documents used as test inputs -/

/-- The single page-1 block of the title-detection scenario: text
Annual Report 2024 at font size 24. -/
def annualReportBlock : Block :=
  ⟨"Annual Report 2024", 1, 100, 150, 300, 174, 612, 792, 240, "Helvetica", 0⟩

/-- Two ordinary body blocks and one bold larger-font heading block on one
page: a minimal document whose pipeline output contains one heading. -/
def bodyBlockA : Block :=
  ⟨"The quick brown fox jumps over a lazy dog sleeping", 1, 72, 300, 540, 312,
   612, 792, 110, "Arial", 0⟩

def bodyBlockB : Block :=
  ⟨"Another plain paragraph of ordinary body text here", 1, 72, 340, 540, 352,
   612, 792, 110, "Arial", 0⟩

def boldHeadingBlock : Block :=
  ⟨"Quarterly Results Overview", 1, 110, 510, 290, 530, 612, 792, 160,
   "Helvetica-Bold", 16⟩

def sampleBlocks : List Block := [bodyBlockA, bodyBlockB, boldHeadingBlock]

/-- A detector candidate on page 1 whose region encloses boldHeadingBlock and
whose cell matrix has 2 rows, 2 columns, all cells non-empty, and a
header-like first row. -/
def sampleTable : DetectedTable :=
  ⟨100, 500, 300, 600, some [[some ("Name"), some ("Date")],
                             [some ("Apple"), some ("Banana")]]⟩

def sampleDetected : List (Nat × DetectedTable) := [(1, sampleTable)]

/-- A document containing a table-of-contents page. -/
def tocDocBlocks : List Block :=
  [⟨"Table of Contents", 1, 72, 100, 250, 118, 612, 792, 140, "Arial", 0⟩,
   ⟨"1. Introduction 5", 1, 72, 150, 250, 165, 612, 792, 110, "Arial", 0⟩]

/-- A nine-page document whose pages 7 to 9 carry no text block, with the
top-band text ACME Corporation on pages 1 and 2. -/
def acmeDocBlocks : List Block :=
  [⟨"ACME Corporation", 1, 72, 40, 200, 52, 612, 792, 90, "Arial", 0⟩,
   ⟨"ACME Corporation", 2, 72, 40, 200, 52, 612, 792, 90, "Arial", 0⟩,
   ⟨"First page paragraph body", 1, 72, 300, 400, 312, 612, 792, 110, "Arial", 0⟩,
   ⟨"Second page paragraph body", 2, 72, 300, 400, 312, 612, 792, 110, "Arial", 0⟩,
   ⟨"Third page paragraph body", 3, 72, 300, 400, 312, 612, 792, 110, "Arial", 0⟩,
   ⟨"Fourth page paragraph body", 4, 72, 300, 400, 312, 612, 792, 110, "Arial", 0⟩,
   ⟨"Fifth page paragraph body", 5, 72, 300, 400, 312, 612, 792, 110, "Arial", 0⟩,
   ⟨"Sixth page paragraph body", 6, 72, 300, 400, 312, 612, 792, 110, "Arial", 0⟩]

def acmeDoc : Document := ⟨9, acmeDocBlocks⟩

/-- A page-3 block whose text is the TOC heading phrase. -/
def tocPhraseBlock : Block :=
  ⟨"Table of Contents", 3, 72, 200, 250, 218, 612, 792, 140, "Arial", 0⟩

/-- A block whose text is the TOC heading phrase index. -/
def indexPhraseBlock : Block :=
  ⟨"index", 2, 72, 200, 140, 215, 612, 792, 140, "Arial", 0⟩

/-- A block with fewer than five characters of text. -/
def tinyBlock : Block := ⟨"hi", 1, 72, 300, 100, 312, 612, 792, 110, "Arial", 0⟩

/-- A small state with one table region on page 1, and a block inside it. -/
def regionOnlyState : FilterState := ⟨[], [], [], [], [(1, (0, 0, 100, 100))]⟩

def insideRegionBlock : Block :=
  ⟨"Inside the region", 1, 10, 10, 90, 20, 612, 792, 110, "Arial", 0⟩

/-! ### Supporting lemmas on the string operations -/

theorem length_dropWhile_le {α : Type} (p : α → Bool) (l : List α) :
    (l.dropWhile p).length ≤ l.length := by
  induction l with
  | nil => simp
  | cons c cs ih =>
    by_cases h : p c
    · simpa [List.dropWhile_cons, h] using Nat.le_succ_of_le ih
    · simp [List.dropWhile_cons, h]

theorem collapseAux_length (l : List Char) :
    (collapseAux l false).length ≤ l.length ∧
    ∀ p : Bool, (collapseAux l p).length ≤ l.length + 1 := by
  induction l with
  | nil => exact ⟨Nat.le_refl _, fun p => by simp [collapseAux]⟩
  | cons c cs ih =>
    by_cases h : isWs c
    · constructor
      · simpa [collapseAux, h] using ih.2 true
      · intro p
        simp only [collapseAux, h, if_true, List.length_cons]
        exact Nat.le_succ_of_le (ih.2 true)
    · constructor
      · simpa [collapseAux, h] using ih.1
      · intro p
        have := ih.1
        cases p <;> simp [collapseAux, h] <;> omega

theorem collapseL_length (l : List Char) : (collapseL l).length ≤ l.length := by
  have h1 := (collapseAux_length (l.dropWhile isWs)).1
  have h2 := length_dropWhile_le isWs l
  simp only [collapseL]
  omega

theorem rtrimL_length (l : List Char) : (rtrimL l).length ≤ l.length := by
  have := length_dropWhile_le isWs l.reverse
  simpa [rtrimL] using this

theorem trimL_length (l : List Char) : (trimL l).length ≤ l.length := by
  have h1 := rtrimL_length (ltrimL l)
  have h2 := length_dropWhile_le isWs l
  simp only [trimL, ltrimL] at h1 ⊢
  omega

theorem mkString_length (l : List Char) : (⟨l⟩ : String).length = l.length := rfl

theorem stripS_length (s : String) : (stripS s).length ≤ s.length := trimL_length s.data

theorem collapseWs_length (s : String) : (collapseWs s).length ≤ s.length :=
  collapseL_length s.data

theorem dropLeadingBullets_length (s : String) :
    (dropLeadingBullets s).length ≤ s.length := length_dropWhile_le isBulletOrWs s.data

theorem stringLength_data (s : String) : s.length = s.data.length := rfl

theorem dropTrailingDots_length (s : String) :
    (dropTrailingDots s).length ≤ s.length := by
  have h := length_dropWhile_le (fun c => c == '.') s.data.reverse
  simp only [dropTrailingDots, mkString_length, List.length_reverse,
    stringLength_data] at h ⊢
  exact h

/-- Unfolding of clean_heading_text through cleanCore and dotStripCond. -/
theorem clean_heading_text_eq (s : String) :
    clean_heading_text s =
      stripS (if dotStripCond (cleanCore s) then dropTrailingDots (cleanCore s)
              else cleanCore s) := rfl

/-- clean_heading_text never lengthens its input. -/
theorem clean_heading_text_length (s : String) :
    (clean_heading_text s).length ≤ s.length := by
  have h2 := collapseWs_length s
  have h3 := dropLeadingBullets_length (collapseWs s)
  have h4 := dropTrailingDots_length (cleanCore s)
  have h5 := stripS_length (dropTrailingDots (cleanCore s))
  have h6 := stripS_length (cleanCore s)
  have hc : (cleanCore s).length ≤ s.length := by
    simp only [cleanCore]; omega
  rw [clean_heading_text_eq]
  by_cases h : dotStripCond (cleanCore s) = true
  · rw [if_pos h]; omega
  · rw [if_neg h]; omega

theorem dropWhile_head_false {α : Type} (p : α → Bool) :
    ∀ (l : List α) (c : α) (cs : List α), l.dropWhile p = c :: cs → p c = false := by
  intro l
  induction l with
  | nil => intro c cs h; simp [List.dropWhile] at h
  | cons a as ih =>
    intro c cs h
    by_cases ha : p a
    · rw [List.dropWhile_cons_of_pos ha] at h; exact ih c cs h
    · rw [List.dropWhile_cons_of_neg ha] at h
      cases h; simpa using ha

theorem getLast?_dropWhile {α : Type} (p : α → Bool) :
    ∀ l : List α, l.dropWhile p ≠ [] → (l.dropWhile p).getLast? = l.getLast? := by
  intro l
  induction l with
  | nil => intro h; simp at h
  | cons a as ih =>
    intro h
    by_cases ha : p a
    · rw [List.dropWhile_cons_of_pos ha] at h ⊢
      have hne : as ≠ [] := by
        intro he; rw [he] at h; simp [List.dropWhile] at h
      rw [ih h]
      obtain ⟨b, bs, rfl⟩ := List.exists_cons_of_ne_nil hne
      simp [List.getLast?_cons_cons]
    · rw [List.dropWhile_cons_of_neg ha]

theorem collapseAux_getLast (l : List Char) :
    ∀ (p : Bool) (c : Char), (collapseAux l p).getLast? = some c → isWs c = false := by
  induction l with
  | nil => intro p c h; simp [collapseAux] at h
  | cons a as ih =>
    intro p c h
    by_cases ha : isWs a
    · rw [show collapseAux (a :: as) p = collapseAux as true from by
        simp [collapseAux, ha]] at h
      exact ih true c h
    · have hrw : collapseAux (a :: as) p =
          (if p then [' ', a] else [a]) ++ collapseAux as false := by
        simp [collapseAux, ha]
      rw [hrw] at h
      by_cases he : collapseAux as false = []
      · rw [he, List.append_nil] at h
        cases p <;> simp at h <;> rw [h] at ha <;> simpa using ha
      · rw [List.getLast?_append_of_ne_nil _ he] at h
        exact ih false c h

/-- The head of the collapsed text is not whitespace. -/
theorem collapseL_ltrim (l : List Char) :
    (collapseL l).dropWhile isWs = collapseL l := by
  unfold collapseL
  cases hd : l.dropWhile isWs with
  | nil => simp [collapseAux]
  | cons c cs =>
    have hc : isWs c = false := dropWhile_head_false isWs l c cs hd
    have : collapseAux (c :: cs) false = c :: collapseAux cs false := by
      simp [collapseAux, hc]
    rw [this, List.dropWhile_cons_of_neg (by simp [hc])]

/-- The collapsed-then-debulleted text is unchanged by a final strip. -/
theorem stripS_cleanCore (s : String) : stripS (cleanCore s) = cleanCore s := by
  have hcore : (cleanCore s).data = (collapseL s.data).dropWhile isBulletOrWs := rfl
  apply congrArg String.mk ∘ Eq.trans rfl
  show trimL (cleanCore s).data = (cleanCore s).data
  rw [hcore]
  have hfront : ltrimL ((collapseL s.data).dropWhile isBulletOrWs) =
      (collapseL s.data).dropWhile isBulletOrWs := by
    unfold ltrimL
    cases hd : (collapseL s.data).dropWhile isBulletOrWs with
    | nil => rfl
    | cons c cs =>
      have hc := dropWhile_head_false isBulletOrWs (collapseL s.data) c cs hd
      have hcw : isWs c = false := by
        simp only [isBulletOrWs, Bool.or_eq_false_iff] at hc
        exact hc.2
      rw [List.dropWhile_cons_of_neg (by simp [hcw])]
  unfold trimL
  rw [hfront]
  unfold rtrimL
  by_cases hne : (collapseL s.data).dropWhile isBulletOrWs = []
  · simp [hne]
  · cases hlast : ((collapseL s.data).dropWhile isBulletOrWs).getLast? with
    | none => exact absurd (List.getLast?_eq_none_iff.mp hlast) hne
    | some c =>
      have hl2 : (collapseL s.data).getLast? = some c := by
        rw [← getLast?_dropWhile isBulletOrWs (collapseL s.data) hne]; exact hlast
      have hcw : isWs c = false := by
        unfold collapseL at hl2
        exact collapseAux_getLast _ false c hl2
      have hrev : ((collapseL s.data).dropWhile isBulletOrWs).reverse.head? = some c := by
        rw [List.head?_reverse]; exact hlast
      cases hrv : ((collapseL s.data).dropWhile isBulletOrWs).reverse with
      | nil => simp [hrv] at hrev
      | cons d ds =>
        rw [hrv] at hrev
        have hd : d = c := by simpa using hrev
        rw [List.dropWhile_cons_of_neg (by simp [hd, hcw])]
        rw [← hrv, List.reverse_reverse]

/-! ### Supporting lemmas on lists and the filter state -/

theorem mem_firstUniques {α : Type} [DecidableEq α] (l : List α) (x : α) :
    x ∈ firstUniques l ↔ x ∈ l := by
  induction l with
  | nil => simp [firstUniques]
  | cons a as ih =>
    simp only [firstUniques, List.mem_cons, List.mem_filter, ih, decide_eq_true_eq]
    constructor
    · rintro (rfl | ⟨h, _⟩)
      · exact Or.inl rfl
      · exact Or.inr h
    · rintro (rfl | h)
      · exact Or.inl rfl
      · by_cases hx : x = a
        · exact Or.inl hx
        · exact Or.inr ⟨h, hx⟩

/-- Membership in the header additions of identify_headers_footers: a
top-band text is added exactly when its occurrence count reaches
min_occurrences and it is not a page-number pattern. -/
theorem mem_headerAdds (blocks : List Block) (t : String) :
    t ∈ headerAdds blocks ↔
      minOccurrences blocks ≤ (topBandTexts blocks).count t ∧ is_page_number t = false := by
  unfold headerAdds
  rw [List.mem_filter, mem_firstUniques]
  constructor
  · rintro ⟨_, h⟩
    simp only [Bool.and_eq_true, decide_eq_true_eq, Bool.not_eq_true'] at h
    exact ⟨h.1, h.2⟩
  · rintro ⟨hc, hp⟩
    have hpos : 0 < (topBandTexts blocks).count t := by
      have h2 : 2 ≤ minOccurrences blocks := le_max_left _ _
      omega
    refine ⟨List.count_pos_iff.mp hpos, ?_⟩
    simp only [Bool.and_eq_true, decide_eq_true_eq, Bool.not_eq_true']
    exact ⟨hc, hp⟩

/-- Every header addition lands in the headers_footers set. -/
theorem headerAdds_subset (cf : FilterState) (blocks : List Block) (t : String)
    (h : t ∈ headerAdds blocks) :
    t ∈ (identify_headers_footers cf blocks).headersFooters := by
  unfold identify_headers_footers
  simp only [List.mem_append]
  exact Or.inl (Or.inr h)

/-! ### Level lemmas for the classification stages -/

theorem get_font_size_level_mem (fs : Option FontStats) (q : ℤ) :
    get_font_size_level fs q = 1 ∨ get_font_size_level fs q = 2 ∨
    get_font_size_level fs q = 3 := by
  cases fs with
  | none => simp [get_font_size_level]
  | some st =>
    by_cases h1 : st.sizeHierarchy.isEmpty
    · simp [get_font_size_level, h1]
    · by_cases h2 : q > st.bodyFontSize + 20
      · simp [get_font_size_level, h1, h2]
      · by_cases h3 : q > st.bodyFontSize
        · simp [get_font_size_level, h1, h2, h3]
        · simp [get_font_size_level, h1, h2, h3]

theorem determine_heading_level_mem (fs : Option FontStats) (b : Block) :
    determine_heading_level fs b = "H1" ∨ determine_heading_level fs b = "H2" ∨
    determine_heading_level fs b = "H3" := by
  unfold determine_heading_level
  dsimp only
  split
  · exact Or.inl rfl
  · split
    · exact Or.inr (Or.inl rfl)
    · split
      · exact Or.inl rfl
      · rcases get_font_size_level_mem fs b.fontSize with h | h | h <;> rw [h]
        · exact Or.inl rfl
        · exact Or.inr (Or.inl rfl)
        · exact Or.inr (Or.inr rfl)

theorem classify_headings_level (cf : FilterState) (fs : Option FontStats)
    (blocks : List Block) (h : HeadingFull) (hm : h ∈ classify_headings cf fs blocks) :
    h.level = "H1" ∨ h.level = "H2" ∨ h.level = "H3" := by
  unfold classify_headings at hm
  rw [List.mem_map] at hm
  obtain ⟨b, _, rfl⟩ := hm
  exact determine_heading_level_mem fs b

/-- Every entry of the merged list takes its level from some input heading. -/
theorem merge_multiline_headings_level :
    ∀ (l : List HeadingFull) (e : OutlineEntry), e ∈ merge_multiline_headings l →
      ∃ h, h ∈ l ∧ e.level = h.level
  | [], e, he => absurd he (by simp [merge_multiline_headings])
  | [a], e, he => by
    simp only [merge_multiline_headings, List.mem_singleton] at he
    exact ⟨a, List.mem_singleton_self a, by rw [he]⟩
  | a :: b :: rest, e, he => by
    simp only [merge_multiline_headings] at he
    split at he
    · rcases List.mem_cons.mp he with rfl | hmem
      · exact ⟨a, List.mem_cons_self a _, rfl⟩
      · obtain ⟨h, hh, hl⟩ := merge_multiline_headings_level rest e hmem
        exact ⟨h, List.mem_cons_of_mem a (List.mem_cons_of_mem b hh), hl⟩
    · rcases List.mem_cons.mp he with rfl | hmem
      · exact ⟨a, List.mem_cons_self a _, rfl⟩
      · obtain ⟨h, hh, hl⟩ := merge_multiline_headings_level (b :: rest) e hmem
        exact ⟨h, List.mem_cons_of_mem a hh, hl⟩

/-- What survives validateOne: the level is preserved and the cleaned text
length lies between 3 and 200. -/
theorem validateOne_some (cf : FilterState) (title : Option String)
    (h : OutlineEntry) (e : OutlineEntry) (hv : validateOne cf title h = some e) :
    e.level = h.level ∧ 3 ≤ e.text.length ∧ e.text.length ≤ 200 := by
  unfold validateOne at hv
  split at hv
  · exact absurd hv (by simp)
  · split at hv
    · exact absurd hv (by simp)
    · split at hv
      · exact absurd hv (by simp)
      · split at hv
        · rename_i hlen hlt hte hclean
          obtain rfl := Option.some_injective _ hv
          refine ⟨rfl, by simpa using hclean, ?_⟩
          have h1 : (clean_heading_text (stripS h.text)).length ≤ (stripS h.text).length :=
            clean_heading_text_length (stripS h.text)
          simp only [Bool.or_eq_true, decide_eq_true_eq, not_or] at hlen
          have h2 : ¬((stripS h.text).length > 200) := hlen.2
          show (clean_heading_text (stripS h.text)).length ≤ 200
          omega
        · exact absurd hv (by simp)

theorem validate_mem (cf : FilterState) (title : Option String)
    (hs : List OutlineEntry) (e : OutlineEntry)
    (he : e ∈ validate_and_clean_headings cf title hs) :
    ∃ h, h ∈ hs ∧ e.level = h.level ∧ 3 ≤ e.text.length ∧ e.text.length ≤ 200 := by
  unfold validate_and_clean_headings at he
  rw [List.mem_filterMap] at he
  obtain ⟨h, hm, hv⟩ := he
  exact ⟨h, hm, validateOne_some cf title h e hv⟩

/-- is_valid_heading can never accept while the font statistics are unset,
because the visual-distinction conjunct is then false. -/
theorem is_valid_heading_none (title : Option String) (cf : FilterState) (b : Block) :
    is_valid_heading title cf none b = false := by
  unfold is_valid_heading
  dsimp only
  split
  · rfl
  · split
    · rfl
    · split
      · rfl
      · split
        · rfl
        · rfl

/-! ### The claims -/

/-- C1: the specified title-detection scenario fails on the code.  For the
document whose only block is the page-1 block with text Annual Report 2024 at
font size 24, the pipeline returns a None title (detect_title falls through,
its scoring logic being unreachable in the source) together with an empty
outline; the claim expects the title Annual Report 2024. -/
theorem c1_title_scenario_evaluation :
    extract_outline [annualReportBlock] = ⟨none, []⟩ := by decide

/-- C2 counterexample: a detector table accepted by the visual-table
validation contains a bold large-font block, and with the full filter chain
of process_all_filters in place the downstream heading stages still emit
that block into the outline, so a block inside an accepted table region does
appear as a heading. -/
theorem c2_counterexample :
    is_valid_table_structure sampleTable = true ∧
    is_text_in_table (process_all_filters sampleDetected emptyFilterState sampleBlocks)
      boldHeadingBlock = true ∧
    (⟨"H1", "Quarterly Results Overview", 1⟩ : OutlineEntry) ∈
      outlineFromState (process_all_filters sampleDetected emptyFilterState sampleBlocks)
        sampleBlocks := by decide

/-- C2 amended: a block inside an accepted table region is excluded from the
valid content blocks (and hence from the font-statistics baseline), but
heading classification never consults the table regions. -/
theorem c2_table_region_blocks_invalid (cf : FilterState) (b : Block)
    (h : is_text_in_table cf b = true) : is_valid_content_block cf b = false := by
  unfold is_valid_content_block
  by_cases h1 : basicContentReject cf b = true
  · simp [h1]
  · simp [h1, h]

theorem c2_table_region_blocks_invalid_witness :
    is_text_in_table regionOnlyState insideRegionBlock = true ∧
    is_valid_content_block regionOnlyState insideRegionBlock = false :=
  ⟨by decide, c2_table_region_blocks_invalid regionOnlyState insideRegionBlock (by decide)⟩

/-- C3: the per-document pipeline never runs table-of-contents detection.
On a document with a page-1 TOC heading and a TOC entry line, the filter
state that extract_outline builds (table patterns, then headers and footers)
has empty TOC page and TOC entry sets, while identify_table_of_contents as
sequenced by the (never invoked) process_all_filters would mark pages 1 and
2 and record the entry. -/
theorem c3_pipeline_toc_never_runs :
    (extractOutlineState tocDocBlocks).tocPages = [] ∧
    (extractOutlineState tocDocBlocks).tocContent = [] ∧
    (process_all_filters [] emptyFilterState tocDocBlocks).tocPages = [1, 2] ∧
    "1. Introduction 5" ∈ (process_all_filters [] emptyFilterState tocDocBlocks).tocContent := by
  decide

/-- C4: every entry of the final outline of extract_outline has text of
length between 3 and 200 and a level among H1, H2 and H3. -/
theorem c4_outline_entry_bounds (blocks : List Block) (e : OutlineEntry)
    (he : e ∈ (extract_outline blocks).outline) :
    3 ≤ e.text.length ∧ e.text.length ≤ 200 ∧
    (e.level = "H1" ∨ e.level = "H2" ∨ e.level = "H3") := by
  unfold extract_outline at he
  split at he
  · simp at he
  · unfold outlineFromState at he
    obtain ⟨h, hm, hlv, hlen3, hlen200⟩ := validate_mem _ _ _ _ he
    obtain ⟨h2, h2m, hl2⟩ := merge_multiline_headings_level _ _ hm
    have hlev := classify_headings_level _ _ _ _ h2m
    refine ⟨hlen3, hlen200, ?_⟩
    rw [hlv, hl2]
    exact hlev

theorem c4_outline_entry_bounds_witness :
    (⟨"H1", "Quarterly Results Overview", 1⟩ : OutlineEntry) ∈
      (extract_outline sampleBlocks).outline ∧
    (3 ≤ (⟨"H1", "Quarterly Results Overview", 1⟩ : OutlineEntry).text.length ∧
     (⟨"H1", "Quarterly Results Overview", 1⟩ : OutlineEntry).text.length ≤ 200 ∧
     ((⟨"H1", "Quarterly Results Overview", 1⟩ : OutlineEntry).level = "H1" ∨
      (⟨"H1", "Quarterly Results Overview", 1⟩ : OutlineEntry).level = "H2" ∨
      (⟨"H1", "Quarterly Results Overview", 1⟩ : OutlineEntry).level = "H3")) :=
  ⟨by decide, c4_outline_entry_bounds sampleBlocks _ (by decide)⟩

/-- C5: an empty input block list yields the Empty Document record with an
empty outline, and no failure. -/
theorem c5_empty_input : extract_outline [] = ⟨some ("Empty Document"), []⟩ := rfl

/-- C6 counterexample: the TOC heading phrase index is rejected by
is_valid_content_block (the 1-to-5-character word heuristic fires during the
basic filters, which the source checks before its TOC-heading special case),
refuting the claim that a TOC heading phrase is always accepted. -/
theorem c6_counterexample :
    is_toc_heading (stripS indexPhraseBlock.text) = true ∧
    is_valid_content_block emptyFilterState indexPhraseBlock = false := by decide

/-- C6 amended: for a block whose text is a TOC heading phrase,
is_valid_content_block bypasses only the TOC-entry rejection; it still equals
the conjunction of the basic filters (length at least 5, not a recorded
table, header-footer or TOC-entry value, not a page number, not
likely-table content) with the table-region check. -/
theorem c6_toc_heading_validity (cf : FilterState) (b : Block)
    (h : is_toc_heading (stripS b.text) = true) :
    is_valid_content_block cf b =
      (!(basicContentReject cf b) && !(is_text_in_table cf b)) := by
  unfold is_valid_content_block
  by_cases h1 : basicContentReject cf b = true
  · simp [h1]
  · by_cases h2 : is_text_in_table cf b = true
    · simp [h1, h2]
    · simp [h1, h2, h]

theorem c6_toc_heading_validity_witness :
    is_toc_heading (stripS tocPhraseBlock.text) = true ∧
    is_valid_content_block emptyFilterState tocPhraseBlock =
      (!(basicContentReject emptyFilterState tocPhraseBlock) &&
       !(is_text_in_table emptyFilterState tocPhraseBlock)) :=
  ⟨by decide, c6_toc_heading_validity emptyFilterState tocPhraseBlock (by decide)⟩

/-- C7 counterexample: on a nine-page document whose last three pages carry
no text block, the top-band text ACME Corporation occurring twice is added
to headers_footers although its count 2 is below the threshold
max(2, pageCount / 3) = 3 of the claim, because the code divides the number
of pages that have blocks (6), not the page count of the document (9). -/
theorem c7_counterexample :
    "ACME Corporation" ∈ (identify_headers_footers emptyFilterState acmeDoc.blocks).headersFooters ∧
    (topBandTexts acmeDoc.blocks).count ("ACME Corporation") = 2 ∧
    acmeDoc.pageCount = 9 ∧
    2 < max 2 (acmeDoc.pageCount / 3) ∧
    is_page_number ("ACME Corporation") = false := by decide

/-- C7 amended: the top-band rule adds a text to headers_footers exactly when
its top-band occurrence count reaches max(2, pagesWithBlocks / 3), where
pagesWithBlocks counts the distinct pages carrying at least one text block,
and the text is not a page-number pattern. -/
theorem c7_header_rule (blocks : List Block) (t : String) :
    (t ∈ headerAdds blocks ↔
      max 2 (numBlockPages blocks / 3) ≤ (topBandTexts blocks).count t ∧
      is_page_number t = false) ∧
    (∀ cf : FilterState, t ∈ headerAdds blocks →
      t ∈ (identify_headers_footers cf blocks).headersFooters) :=
  ⟨by simpa [minOccurrences] using mem_headerAdds blocks t,
   fun cf h => headerAdds_subset cf blocks t h⟩

theorem c7_header_rule_witness :
    "ACME Corporation" ∈ headerAdds acmeDocBlocks ∧
    "ACME Corporation" ∈ (identify_headers_footers emptyFilterState acmeDocBlocks).headersFooters :=
  ⟨by decide, (c7_header_rule acmeDocBlocks ("ACME Corporation")).2 emptyFilterState (by decide)⟩

/-- C8 counterexample: on the input Good morning with two trailing periods,
clean_heading_text removes both periods (the source rstrips every trailing
period), while the claim of stripping exactly one trailing period would
leave a text still ending in a period. -/
theorem c8_counterexample :
    clean_heading_text ("Good morning..") = "Good morning" ∧
    endsWithDot (clean_heading_text ("Good morning..")) = false := by decide

/-- C8 amended: after whitespace collapsing and bullet stripping, all
trailing periods (not exactly one) are removed exactly when the text has
more than one word and its final whitespace-separated word is longer than 3
characters, followed by a final whitespace strip; in every other case the
collapsed text is returned unchanged, trailing period included. -/
theorem c8_trailing_period_rule (s : String) :
    (dotStripCond (cleanCore s) = true →
      clean_heading_text s = stripS (dropTrailingDots (cleanCore s))) ∧
    (dotStripCond (cleanCore s) = false → clean_heading_text s = cleanCore s) := by
  constructor
  · intro h
    rw [clean_heading_text_eq, if_pos h]
  · intro h
    rw [clean_heading_text_eq, if_neg (by simp [h]), stripS_cleanCore]

theorem c8_trailing_period_rule_witness :
    dotStripCond (cleanCore ("Hello World.")) = true ∧
    clean_heading_text ("Hello World.") =
      stripS (dropTrailingDots (cleanCore ("Hello World."))) :=
  ⟨by decide, (c8_trailing_period_rule ("Hello World.")).1 (by decide)⟩

/-- C9: the font-size-to-level mapping is monotone above the body size: for
sizes a above b above the body font size, the level of a is at most the
level of b, whatever the font-statistics state. -/
theorem c9_font_level_monotone (fs : Option FontStats) (a b : ℤ)
    (hab : b < a) (hbody : ∀ st, fs = some st → st.bodyFontSize < b) :
    get_font_size_level fs a ≤ get_font_size_level fs b := by
  cases fs with
  | none => simp [get_font_size_level]
  | some st =>
    have hb := hbody st rfl
    by_cases h0 : st.sizeHierarchy.isEmpty
    · simp [get_font_size_level, h0]
    · by_cases h1 : b > st.bodyFontSize + 20
      · have h2 : a > st.bodyFontSize + 20 := lt_trans h1 hab
        simp [get_font_size_level, h0, h1, h2]
      · by_cases h2 : a > st.bodyFontSize + 20
        · have h3 : b > st.bodyFontSize := hb
          simp [get_font_size_level, h0, h1, h2, h3]
        · have h3 : a > st.bodyFontSize := lt_trans hb hab
          simp [get_font_size_level, h0, h1, h2, h3, hb]

theorem c9_font_level_monotone_witness :
    (140 : ℤ) < 150 ∧
    get_font_size_level (some ⟨110, "Arial", [160, 110]⟩) 150 ≤
      get_font_size_level (some ⟨110, "Arial", [160, 110]⟩) 140 :=
  ⟨by decide, c9_font_level_monotone (some ⟨110, "Arial", [160, 110]⟩) 150 140 (by decide)
    (fun st h => by cases h; decide)⟩

/-- C10: when no block passes is_valid_content_block, analyze_font_patterns
returns the fallback statistics and leaves the stored state unchanged,
has_visual_distinction is false for every block while the state is unset,
and classify_headings emits no heading, so the fallback body font is never
used to accept or level a heading. -/
theorem c10_no_valid_blocks (cf : FilterState) (blocks : List Block)
    (prev : Option FontStats)
    (h : ∀ b ∈ blocks, is_valid_content_block cf b = false) :
    analyze_font_patterns cf blocks prev = (fallbackFontStats, prev) ∧
    (∀ b, has_visual_distinction none b = false) ∧
    classify_headings cf none blocks = [] := by
  have hfil : blocks.filter (is_valid_content_block cf) = [] :=
    List.filter_eq_nil_iff.mpr (fun b hb => by simp [h b hb])
  refine ⟨?_, fun b => rfl, ?_⟩
  · unfold analyze_font_patterns
    rw [hfil]
    rfl
  · unfold classify_headings
    have h2 : blocks.filter (is_valid_heading (detect_title blocks) cf none) = [] :=
      List.filter_eq_nil_iff.mpr
        (fun b hb => by simp [is_valid_heading_none (detect_title blocks) cf b])
    rw [h2]
    rfl

theorem c10_no_valid_blocks_witness :
    analyze_font_patterns emptyFilterState [tinyBlock] none = (fallbackFontStats, none) ∧
    classify_headings emptyFilterState none [tinyBlock] = [] := by
  have h := c10_no_valid_blocks emptyFilterState [tinyBlock] none (by decide)
  exact ⟨h.1, h.2.2⟩

end PdfParser
